import Mathlib

/-!
# Verification of the CryptoGuard feature-engineering pipeline

Shallow embedding of `src/analysis/data_process.py` (`class DataProcessor`):
the Row Normalizer (`process_to_dataframe`), Feature Deriver
(`add_technical_features`), Volatility Estimator (`calculate_volatility`),
Label & Dataset Builder (`prepare_training_data`), persistence path
sanitization (`save_data`) and the Orchestrator (`full_pipeline`).

Numeric cells are modelled as an IEEE-style value: NaN (pandas' missing
marker for float columns), a signed infinity, or a finite value carried as
an exact rational. A pandas `DataFrame` is a list of named, equal-length
columns of such cells; in-place column assignment (`df[name] = ...`)
replaces the column of that name or appends a new one at the end, exactly
as pandas does. `np.log` on a finite value leaves the rationals, so the
finite branch of the elementwise logarithm is a parameter `lg : ℚ → FVal`
of every definition that needs it; its behaviour on NaN/±∞ is fixed to
numpy's. The GARCH fit of the `arch` package is an external solver and is
modelled as an oracle `garch : List FVal → Option (List FVal)` (`none`
models the fit raising, which the source catches).
-/

namespace CryptoGuard

/-- A float cell: NaN (pandas missing marker), signed infinity
(`inf true` = +∞, `inf false` = -∞), or a finite value as an exact
rational. -/
inductive FVal where
  | nan : FVal
  | inf : Bool → FVal
  | fin : ℚ → FVal
deriving DecidableEq, Repr

namespace FVal

/-- Is this cell the missing marker (NaN)? -/
def isNan : FVal → Bool
  | nan => true
  | _ => false

/-- IEEE addition on cells. -/
def add : FVal → FVal → FVal
  | nan, _ => nan
  | _, nan => nan
  | fin x, fin y => fin (x + y)
  | inf b, fin _ => inf b
  | fin _, inf b => inf b
  | inf b, inf c => if b = c then inf b else nan

/-- IEEE subtraction on cells. -/
def sub : FVal → FVal → FVal
  | nan, _ => nan
  | _, nan => nan
  | fin x, fin y => fin (x - y)
  | inf b, fin _ => inf b
  | fin _, inf b => inf (!b)
  | inf b, inf c => if b = c then nan else inf b

/-- IEEE multiplication on cells. -/
def mul : FVal → FVal → FVal
  | nan, _ => nan
  | _, nan => nan
  | fin x, fin y => fin (x * y)
  | inf b, fin y => if y = 0 then nan else if 0 < y then inf b else inf (!b)
  | fin x, inf b => if x = 0 then nan else if 0 < x then inf b else inf (!b)
  | inf b, inf c => inf (b = c)

/-- IEEE division on cells: `x / 0` is a signed infinity for finite
nonzero `x` (numpy/pandas raise no fault), `0 / 0` is NaN, NaN
propagates. -/
def div : FVal → FVal → FVal
  | nan, _ => nan
  | _, nan => nan
  | fin x, fin y =>
      if y = 0 then (if x = 0 then nan else inf (0 < x))
      else fin (x / y)
  | fin _, inf _ => fin 0
  | inf b, fin y => if y < 0 then inf (!b) else inf b
  | inf _, inf _ => nan

/-- IEEE `<` on cells: any comparison with NaN is false. -/
def lt : FVal → FVal → Bool
  | nan, _ => false
  | _, nan => false
  | fin x, fin y => decide (x < y)
  | inf b, fin _ => !b
  | fin _, inf b => b
  | inf b, inf c => !b && c

end FVal

/-- `np.log` elementwise on cells: NaN and negative infinity map to NaN,
+∞ maps to +∞; the finite branch is delegated to the caller-supplied
idealized logarithm `lg` (its values are irrational, hence outside the
rational cell payload). -/
def npLog (lg : ℚ → FVal) : FVal → FVal
  | FVal.nan => FVal.nan
  | FVal.inf true => FVal.inf true
  | FVal.inf false => FVal.nan
  | FVal.fin x => lg x

/-- A pandas DataFrame of float columns: named columns in order. -/
structure Table where
  cols : List (String × List FVal)
deriving DecidableEq, Repr

/-- Column lookup (`df[name]`): first column of that name. -/
def getColAux : List (String × List FVal) → String → Option (List FVal)
  | [], _ => none
  | c :: cs, n => if c.1 = n then some c.2 else getColAux cs n

/-- In-place column assignment (`df[name] = v`): replace the column of
that name, or append a new one at the end. -/
def setColAux : List (String × List FVal) → String → List FVal → List (String × List FVal)
  | [], n, v => [(n, v)]
  | c :: cs, n, v => if c.1 = n then (n, v) :: cs else c :: setColAux cs n v

/-- `df[name]`, raising `KeyError` (modelled as `none`) when absent. -/
def Table.getCol (t : Table) (n : String) : Option (List FVal) :=
  getColAux t.cols n

/-- `df[name] = v`. -/
def Table.setCol (t : Table) (n : String) (v : List FVal) : Table :=
  ⟨setColAux t.cols n v⟩

/-- Does the frame have a column of this name? -/
def Table.hasCol (t : Table) (n : String) : Bool :=
  (t.getCol n).isSome

/-- Number of rows (columns are equal-length in well-formed frames). -/
def Table.nrows (t : Table) : ℕ :=
  match t.cols with
  | [] => 0
  | c :: _ => c.2.length

/-- Does row `i` contain a missing marker in some column? -/
def Table.rowHasNan (t : Table) (i : ℕ) : Bool :=
  t.cols.any (fun c => ((c.2.get? i).getD FVal.nan).isNan)

/-- Indices of the rows `df.dropna()` keeps. -/
def Table.keptRows (t : Table) : List ℕ :=
  (List.range t.nrows).filter (fun i => ! t.rowHasNan i)

/-- Restrict the frame to the given row indices (in order). -/
def Table.selectRows (t : Table) (idxs : List ℕ) : Table :=
  ⟨t.cols.map (fun c => (c.1, idxs.filterMap (fun i => c.2.get? i)))⟩

/-- `df.dropna()`: drop every row containing a missing marker (a copy;
the receiver is not mutated). -/
def Table.dropna (t : Table) : Table :=
  t.selectRows t.keptRows

/-- `series.dropna()` on a single column. -/
def dropnaList (c : List FVal) : List FVal :=
  c.filter (fun v => ! v.isNan)

/-! ## Row Normalizer: `DataProcessor.process_to_dataframe`

```python
df = pd.DataFrame(klines, columns=columns)                      # 12 names
df[numeric_cols] = df[numeric_cols].apply(pd.to_numeric, error='coerce')
...
except Exception as e: ...; return None
```

`pd.to_numeric` has no keyword `error` (the keyword is `errors`), so the
`apply` call raises `TypeError` on the first column, for every input; the
blanket `except` logs the error and returns `None`. The lines after line
26 (`pd.to_datetime`, `set_index`) are never reached. -/

/-- A raw cell of an input kline row: a string or a number. -/
inductive RawVal where
  | str : String → RawVal
  | num : ℚ → RawVal
deriving DecidableEq, Repr

/-- The 12 column names `process_to_dataframe` assigns positionally. -/
def klineColumns : List String :=
  ["timestamp", "open", "high", "low", "close", "volume",
   "close_time", "quote_volume", "trades",
   "taker_buy_base", "taker_buy_quote", "ignore"]

/-- The columns `process_to_dataframe` tries to coerce to numeric. -/
def numericCols : List String :=
  ["open", "high", "low", "close", "volume", "quote_volume",
   "trades", "taker_buy_base", "taker_buy_quote"]

/-- The positional column named `n` of the raw kline matrix. -/
def rawColumn (klines : List (List RawVal)) (n : String) : List RawVal :=
  klines.map (fun r => (r.get? (klineColumns.indexOf n)).getD (RawVal.str ""))

/-- `series.apply`-site of `pd.to_numeric(... , error='coerce')`: the
keyword `error` does not exist (`pd.to_numeric(arg, errors=..., downcast=...)`),
so the call raises `TypeError` before converting anything; modelled as
having no defined result for any column. -/
def toNumericWrongKeyword (_column : List RawVal) : Option (List FVal) :=
  none

/-- `DataProcessor.process_to_dataframe`. A ragged input makes the
`pd.DataFrame` constructor raise (handled: `None`); otherwise the
numeric coercion raises `TypeError` because of the misspelled keyword
(handled: `None`). The `some` branch records what would follow
(timestamp conversion into the misspelled column `timestamps`, then
`set_index`), but is unreachable. -/
def processToDataframe (klines : List (List RawVal)) : Option Table :=
  if klines.all (fun r => r.length = klineColumns.length) then
    match numericCols.mapM (fun c => toNumericWrongKeyword (rawColumn klines c)) with
    | none => none
    | some numeric => some ⟨numericCols.zip numeric⟩
  else none

/-! ## Feature Deriver: `DataProcessor.add_technical_features`

Each source line reads columns from the current frame and assigns a new
column in place. A `KeyError` (missing column) aborts the `try` block at
that line; the `except` handler logs and `return df` — i.e. it returns the
same, possibly already partially-mutated, frame object. On success the
function returns `df.dropna()` (a copy), while the caller's frame keeps
every row and the added columns. The embedding returns the pair
`(value returned, final state of the caller's frame)`. -/

/-- `series.shift(1)`: cell `t` becomes cell `t-1`, cell `0` becomes NaN. -/
def shiftDown (c : List FVal) : List FVal :=
  (List.range c.length).map (fun t =>
    if t = 0 then FVal.nan else (c.get? (t - 1)).getD FVal.nan)

/-- `series.shift(-h)`: cell `t` becomes cell `t+h`, the last `h` cells
become NaN. -/
def shiftUp (h : ℕ) (c : List FVal) : List FVal :=
  (List.range c.length).map (fun t => (c.get? (t + h)).getD FVal.nan)

/-- `series.rolling(w).mean()`: trailing mean over the last `w` cells;
NaN while fewer than `w` cells are available and whenever the window
contains a NaN (`min_periods` defaults to the window size). -/
def rollingMean (w : ℕ) (c : List FVal) : List FVal :=
  (List.range c.length).map (fun t =>
    if t + 1 < w then FVal.nan
    else ((((c.take (t + 1)).drop (t + 1 - w)).foldl FVal.add
            (FVal.fin 0)).div (FVal.fin (w : ℚ))))

/-- Weighted numerator/denominator of `ewm(span).mean()` at one cell:
`rev` is the history newest-first, the weight of the cell at distance `i`
is `β^i`; non-finite cells contribute to neither sum (pandas skips NaN
observations while their positions still decay the weights). -/
def ewmWeighted (β : ℚ) (rev : List FVal) : ℚ × ℚ :=
  (List.range rev.length).foldl
    (fun nd i =>
      match rev.get? i with
      | some (FVal.fin x) => (nd.1 + β ^ i * x, nd.2 + β ^ i)
      | _ => nd)
    (0, 0)

/-- `series.ewm(span=s).mean()` with pandas defaults (`adjust=True`,
`min_periods=0`): cell `t` is the decaying-weight average of all history
up to `t`, NaN only when no finite observation exists yet. -/
def ewmMean (span : ℚ) (c : List FVal) : List FVal :=
  let β : ℚ := 1 - 2 / (span + 1)
  (List.range c.length).map (fun t =>
    let nd := ewmWeighted β ((c.take (t + 1)).reverse)
    if nd.2 = 0 then FVal.nan else FVal.fin (nd.1 / nd.2))

/-- The `log_returns` column: `np.log(df['close'] / df['close'].shift(1))`. -/
def logReturnsCol (lg : ℚ → FVal) (close : List FVal) : List FVal :=
  (List.zipWith FVal.div close (shiftDown close)).map (npLog lg)

/-- Line 39: `df['log_returns'] = np.log(df['close'] / df['close'].shift(1))`. -/
def stepLogReturns (lg : ℚ → FVal) (df : Table) : Option Table :=
  match df.getCol "close" with
  | some close => some (df.setCol "log_returns" (logReturnsCol lg close))
  | none => none

/-- Line 42: `df['taker_buy_ratio'] = df['taker_buy_quote'] / df['quote_volume']`. -/
def stepRatio (df : Table) : Option Table :=
  match df.getCol "taker_buy_quote", df.getCol "quote_volume" with
  | some tbq, some qv =>
      some (df.setCol "taker_buy_ratio" (List.zipWith FVal.div tbq qv))
  | _, _ => none

/-- Line 43: `df['liquidity_gap'] = (df['high'] - df['low']) / df['close']`. -/
def stepLiquidity (df : Table) : Option Table :=
  match df.getCol "high", df.getCol "low", df.getCol "close" with
  | some high, some low, some close =>
      some (df.setCol "liquidity_gap"
        (List.zipWith FVal.div (List.zipWith FVal.sub high low) close))
  | _, _, _ => none

/-- Line 44: `df['price_spread'] = df['close'] - df['open']`. -/
def stepSpread (df : Table) : Option Table :=
  match df.getCol "close", df.getCol "open" with
  | some close, some op =>
      some (df.setCol "price_spread" (List.zipWith FVal.sub close op))
  | _, _ => none

/-- Line 47: `df['sma_20'] = df['close'].rolling(20).mean()`. -/
def stepSma (df : Table) : Option Table :=
  match df.getCol "close" with
  | some close => some (df.setCol "sma_20" (rollingMean 20 close))
  | none => none

/-- Line 48: `df['ema_12'] = df['close'].ewm(span=12).mean()`. -/
def stepEma12 (df : Table) : Option Table :=
  match df.getCol "close" with
  | some close => some (df.setCol "ema_12" (ewmMean 12 close))
  | none => none

/-- Line 49: `df['ema_26'] = df['close'].ewm(span=26).mean()`. -/
def stepEma26 (df : Table) : Option Table :=
  match df.getCol "close" with
  | some close => some (df.setCol "ema_26" (ewmMean 26 close))
  | none => none

/-- Line 50: `df['macd'] = df['ema_12'] - df['ema_26']`. -/
def stepMacd (df : Table) : Option Table :=
  match df.getCol "ema_12", df.getCol "ema_26" with
  | some e12, some e26 =>
      some (df.setCol "macd" (List.zipWith FVal.sub e12 e26))
  | _, _ => none

/-- Run one line of the `try` block: a `KeyError` (`none`) jumps to the
`except` handler, which returns the current (possibly partially-mutated)
frame both as the return value and as the caller's frame state. -/
def tryStep (df : Table) (step : Table → Option Table)
    (rest : Table → Table × Table) : Table × Table :=
  match step df with
  | none => (df, df)
  | some df' => rest df'

/-- `DataProcessor.add_technical_features`: result is
`(value returned, final state of the caller's frame)`. -/
def addTechnicalFeatures (lg : ℚ → FVal) (df : Table) : Table × Table :=
  tryStep df (stepLogReturns lg) fun df1 =>
  tryStep df1 stepRatio fun df2 =>
  tryStep df2 stepLiquidity fun df3 =>
  tryStep df3 stepSpread fun df4 =>
  tryStep df4 stepSma fun df5 =>
  tryStep df5 stepEma12 fun df6 =>
  tryStep df6 stepEma26 fun df7 =>
  tryStep df7 stepMacd fun df8 =>
  (df8.dropna, df8)

/-- The frame state after all eight assignments of
`add_technical_features` succeed on a frame whose source columns are
`close`, `tbq`, `qv`, `high`, `low`, `op` (the normal form of the
mutation chain). -/
def enrichedTable (lg : ℚ → FVal) (close tbq qv high low op : List FVal)
    (df : Table) : Table :=
  ((((((((df.setCol "log_returns" (logReturnsCol lg close)).setCol
    "taker_buy_ratio" (List.zipWith FVal.div tbq qv)).setCol
    "liquidity_gap" (List.zipWith FVal.div (List.zipWith FVal.sub high low)
      close)).setCol
    "price_spread" (List.zipWith FVal.sub close op)).setCol
    "sma_20" (rollingMean 20 close)).setCol
    "ema_12" (ewmMean 12 close)).setCol
    "ema_26" (ewmMean 26 close)).setCol
    "macd" (List.zipWith FVal.sub (ewmMean 12 close) (ewmMean 26 close)))

/-! ## Volatility Estimator: `DataProcessor.calculate_volatility`

```python
returns = df['log_returns'].dropna()
if len(returns) > 10:
    scalated_returns = returns * 1000
    garch = arch_model(...); garch_fitted = garch.fit(disp='off')
    df['garch_volatility'] = garch_fitted.conditional_volatility / 1000
    return df
except Exception as e: ...; df["garch_volatility"] = np.nan; return df
```

When `len(returns) <= 10` the `if` body is skipped and the function falls
off the end of the `try` block with no `return` statement: Python returns
`None`. Only an exception (missing `log_returns` column, or the fit
raising) reaches the handler that attaches the all-NaN column. -/

/-- Scatter the fitted conditional-volatility series (indexed by the
non-NaN positions of the return column) back onto the full column length,
NaN at the dropped positions — pandas index alignment on assignment. -/
def alignToMask : List FVal → List Bool → List FVal
  | _, [] => []
  | cvs, false :: m => FVal.nan :: alignToMask cvs m
  | [], true :: m => FVal.nan :: alignToMask [] m
  | cv :: cvs, true :: m => cv :: alignToMask cvs m

/-- `DataProcessor.calculate_volatility`; `garch` is the external
`arch_model(...).fit` oracle (`none` = the fit raised). -/
def calculateVolatility (garch : List FVal → Option (List FVal))
    (df : Table) : Option Table :=
  match df.getCol "log_returns" with
  | none =>
      -- KeyError → handler: df["garch_volatility"] = np.nan; return df
      some (df.setCol "garch_volatility" (List.replicate df.nrows FVal.nan))
  | some col =>
      let returns := dropnaList col
      if 10 < returns.length then
        match garch (returns.map (fun v => FVal.mul v (FVal.fin 1000))) with
        | none =>
            some (df.setCol "garch_volatility" (List.replicate df.nrows FVal.nan))
        | some cv =>
            some (df.setCol "garch_volatility"
              (alignToMask (cv.map (fun v => FVal.div v (FVal.fin 1000)))
                (col.map (fun v => ! v.isNan))))
      else
        -- falls off the end of the try block: Python returns None
        none

/-! ## Label & Dataset Builder: `DataProcessor.prepare_training_data`

```python
df['target'] = np.where(df['close'].shift(-forecast_horizon) < df['close'] * 0.95, 0, 1)
features = ['log_returns','taker_buy_ratio','liquidity_gap','garch_volatility','macd','sma_20']
X = self.scaler.fit_transform(df[features].dropna())
y = df['target'].dropna()
return X, y
except ...: return None, None
```

`DataProcessor.__init__` sets only `self.logger`; there is no `scaler`
attribute (`MinMaxScaler` is imported but never instantiated), so the
`self.scaler` access raises `AttributeError` on every call that reaches
it, and the handler returns `(None, None)`. The target assignment has
already mutated the caller's frame at that point. -/

/-- `__init__` sets only `self.logger`: the processor has no `scaler`
attribute. -/
def processorHasScaler : Bool := false

/-- The fixed ordered feature subset of the Dataset Builder. -/
def featureNames : List String :=
  ["log_returns", "taker_buy_ratio", "liquidity_gap",
   "garch_volatility", "macd", "sma_20"]

/-- The `target` column:
`np.where(close.shift(-h) < close * 0.95, 0, 1)` — an integer column;
`NaN < x` is false, so rows past the horizon get the else-value 1. -/
def whereTarget (h : ℕ) (close : List FVal) : List FVal :=
  List.zipWith
    (fun f c => if FVal.lt f (FVal.mul c (FVal.fin (19 / 20))) then FVal.fin 0
                else FVal.fin 1)
    (shiftUp h close) close

/-- `df[features]` as a sub-frame; `none` models the `KeyError` when a
requested column is absent. -/
def selectCols (df : Table) (names : List String) : Option Table :=
  (names.mapM (fun n => (df.getCol n).map (fun c => (n, c)))).map Table.mk

/-- `sklearn.MinMaxScaler.fit_transform` on one (finite) column:
`(x - min) / (max - min)`, with a zero-range column mapped by
`scale_ = 1` to `x - min = 0`. -/
def minMaxColumn (c : List ℚ) : List ℚ :=
  match c with
  | [] => []
  | x :: xs =>
      let lo := xs.foldl min x
      let hi := xs.foldl max x
      (x :: xs).map (fun v => if hi = lo then v - lo else (v - lo) / (hi - lo))

/-- The finite payloads of a column (the scaler runs after `dropna`). -/
def finsOf (c : List FVal) : List ℚ :=
  c.filterMap (fun v => match v with | FVal.fin q => some q | _ => none)

/-- `DataProcessor.prepare_training_data`: result is
`((X, y), final state of the caller's frame)`. The first `match` is the
`KeyError` when `close` is absent (the frame is then still untouched);
after the target assignment, either `df[features]` raises `KeyError` or
`self.scaler` raises `AttributeError` (the attribute is never created),
so the handler's `(None, None)` is returned on every path — the `then`
branch records the would-be scaling, but `processorHasScaler` is false. -/
def prepareTrainingData (df : Table) (h : ℕ) :
    (Option (List (List ℚ)) × Option (List FVal)) × Table :=
  match df.getCol "close" with
  | none => ((none, none), df)
  | some close =>
      match selectCols (df.setCol "target" (whereTarget h close)) featureNames with
      | none => ((none, none), df.setCol "target" (whereTarget h close))
      | some feat =>
          if processorHasScaler then
            ((some ((feat.dropna).cols.map (fun p => minMaxColumn (finsOf p.2))),
              some (dropnaList (whereTarget h close))),
             df.setCol "target" (whereTarget h close))
          else ((none, none), df.setCol "target" (whereTarget h close))

/-! ## Persistence: `DataProcessor.save_data`

```python
safe_path = Path('data/processed') / Path(filename).name
```

`PurePath.name` is the final path component after dropping empty and `.`
components — a trailing `..` component is kept. The write target is the
join of the fixed directory with that name. Paths are compared through
their component lists; `resolve` eliminates `..` lexically. -/

/-- Split a character sequence on `/` (the separator semantics of
`str.split('/')`). -/
def splitOnSlash : List Char → List (List Char)
  | [] => [[]]
  | c :: rest =>
      match splitOnSlash rest with
      | comp :: comps =>
          if c = '/' then [] :: comp :: comps else (c :: comp) :: comps
      | [] => [[c]]

/-- The component list of a POSIX path string: split on `/`, drop empty
and `.` components (pathlib's parse). -/
def parseComponents (s : String) : List String :=
  ((splitOnSlash s.data).map (fun cs => String.mk cs)).filter
    (fun c => c ≠ "" && c ≠ ".")

/-- `pathlib.Path(s).name`: the final parsed component, `""` when there
is none. Note `Path("..").name = ".."`. -/
def pathName (s : String) : String :=
  ((parseComponents s).getLast?).getD ""

/-- The component list of the write target
`Path('data/processed') / Path(filename).name`. -/
def saveTargetComps (filename : String) : List String :=
  ["data", "processed"] ++
    (if pathName filename = "" then [] else [pathName filename])

/-- Lexical resolution of `..` components against their parent. -/
def resolveComps (comps : List String) : List String :=
  comps.foldl (fun acc c => if c = ".." then acc.dropLast else acc ++ [c]) []

/-- Is a resolved path strictly inside `data/processed`? -/
def strictlyInsideProcessed (comps : List String) : Bool :=
  match resolveComps comps with
  | "data" :: "processed" :: _ :: _ => true
  | _ => false

/-! ## Pipeline Orchestrator: `DataProcessor.full_pipeline`

`process_to_dataframe`, then `add_technical_features`, then
`calculate_volatility`; persistence (`save_data`) has no effect on the
returned value and its write failures are caught internally, so it is
omitted from the value-level model. A `None` from the normalizer
short-circuits; the volatility stage's value (possibly `None`) is
returned as-is. -/

/-- `DataProcessor.full_pipeline`. -/
def fullPipeline (lg : ℚ → FVal) (garch : List FVal → Option (List FVal))
    (klines : List (List RawVal)) (_saveAs : Option String) : Option Table :=
  match processToDataframe klines with
  | none => none
  | some df => calculateVolatility garch (addTechnicalFeatures lg df).1

/-! ## Concrete frames for witnesses and counterexamples -/

/-- A concrete executable instantiation of the abstract elementwise
logarithm parameter, used only to evaluate the embedding on concrete
frames (the claims proved below hold for every instantiation). -/
def idLog : ℚ → FVal := fun q => FVal.fin q

/-- A two-row frame with all source columns; its `quote_volume` column
has a zero in row 0 against a nonzero `taker_buy_quote`. -/
def sampleFrame6 : Table :=
  ⟨[("close", [FVal.fin 1, FVal.fin 1]),
    ("taker_buy_quote", [FVal.fin 1, FVal.fin 1]),
    ("quote_volume", [FVal.fin 0, FVal.fin 2]),
    ("high", [FVal.fin 1, FVal.fin 1]),
    ("low", [FVal.fin 1, FVal.fin 1]),
    ("open", [FVal.fin 1, FVal.fin 1])]⟩

/-- A two-row frame with only a `close` column: `quote_volume` is
missing, so the feature stage fails at its second assignment. -/
def sampleFrame7 : Table :=
  ⟨[("close", [FVal.fin 1, FVal.fin 2])]⟩

/-- A one-row frame with no `close` column at all. -/
def sampleFrameNoClose : Table :=
  ⟨[("open", [FVal.fin 1])]⟩

/-! ## Basic frame lemmas -/

theorem getColAux_setColAux_self (cs : List (String × List FVal)) (n : String)
    (v : List FVal) : getColAux (setColAux cs n v) n = some v := by
  induction cs with
  | nil => simp [setColAux, getColAux]
  | cons c cs ih =>
      by_cases h : c.1 = n
      · simp [setColAux, getColAux, h]
      · simp [setColAux, getColAux, h, ih]

theorem getColAux_setColAux_ne (cs : List (String × List FVal)) (n n' : String)
    (v : List FVal) (h : n' ≠ n) :
    getColAux (setColAux cs n v) n' = getColAux cs n' := by
  induction cs with
  | nil => simp [setColAux, getColAux, Ne.symm h]
  | cons c cs ih =>
      by_cases hc : c.1 = n
      · subst hc
        simp [setColAux, getColAux, Ne.symm h]
      · simp [setColAux, getColAux, hc, ih]

theorem Table.getCol_setCol_self (t : Table) (n : String) (v : List FVal) :
    (t.setCol n v).getCol n = some v :=
  getColAux_setColAux_self t.cols n v

theorem Table.getCol_setCol_ne (t : Table) (n n' : String) (v : List FVal)
    (h : n' ≠ n) : (t.setCol n v).getCol n' = t.getCol n' :=
  getColAux_setColAux_ne t.cols n n' v h

theorem Table.hasCol_setCol_self (t : Table) (n : String) (v : List FVal) :
    (t.setCol n v).hasCol n = true := by
  simp [Table.hasCol, Table.getCol_setCol_self]

/-! ## Row Normalizer -/

/-- `process_to_dataframe` returns `None` on every input: the numeric
coercion `df[numeric_cols].apply(pd.to_numeric, error='coerce')` raises
`TypeError` (`pd.to_numeric` has no keyword `error`), which the blanket
handler converts to `None`; ragged inputs already fail in the
`pd.DataFrame` constructor. -/
theorem processToDataframe_eq_none (klines : List (List RawVal)) :
    processToDataframe klines = none := by
  unfold processToDataframe
  split
  · rfl
  · rfl

/-- C1: the claim states that `process_to_dataframe` returns a table (not
an absent result) for every well-shaped 12-field input, with non-coercible
numeric cells replaced by the missing marker. The code instead returns
`None` for every input, because `pd.to_numeric` is called with the
misspelled keyword `error=` (the keyword is `errors=`), raising
`TypeError` which the blanket handler turns into `None`. -/
theorem claimC1_process_to_dataframe_always_none
    (klines : List (List RawVal)) : processToDataframe klines = none :=
  processToDataframe_eq_none klines

/-! ## Volatility Estimator -/

/-- C2: the claim states that `calculate_volatility` never raises and
always returns a table with a `garch_volatility` column, in particular
returning an all-missing column when fewer than 10 non-missing returns
exist. The code instead returns `None` whenever the number of non-missing
returns is at most 10: the `if len(returns) > 10` body is skipped and the
function falls off the end of the `try` block without a `return`
statement. -/
theorem claimC2_calculate_volatility_short_series_none
    (garch : List FVal → Option (List FVal)) (df : Table) (col : List FVal)
    (hcol : df.getCol "log_returns" = some col)
    (hlen : (dropnaList col).length ≤ 10) :
    calculateVolatility garch df = none := by
  unfold calculateVolatility
  rw [hcol]
  simp [Nat.not_lt.mpr hlen]

/-- Witness for C2: a frame whose `log_returns` column has three
non-missing values is mapped to `None`. -/
theorem claimC2_witness :
    (Table.mk [("log_returns",
        [FVal.fin 1, FVal.nan, FVal.fin 2, FVal.fin 3])]).getCol "log_returns"
      = some [FVal.fin 1, FVal.nan, FVal.fin 2, FVal.fin 3] ∧
    (dropnaList [FVal.fin 1, FVal.nan, FVal.fin 2, FVal.fin 3]).length ≤ 10 ∧
    calculateVolatility (fun _ => none)
      (Table.mk [("log_returns",
        [FVal.fin 1, FVal.nan, FVal.fin 2, FVal.fin 3])]) = none :=
  ⟨rfl, by decide,
   claimC2_calculate_volatility_short_series_none (fun _ => none) _ _ rfl (by decide)⟩

/-! ## Label & Dataset Builder: failure behaviour -/

/-- `prepare_training_data` never returns a dataset: every path ends in
the `except` handler's `(None, None)` — a missing `close` or feature
column raises `KeyError`, and otherwise `self.scaler` raises
`AttributeError` because `__init__` never creates the attribute. -/
theorem prepareTrainingData_fst_none (df : Table) (h : ℕ) :
    (prepareTrainingData df h).1 = (none, none) := by
  unfold prepareTrainingData
  split
  · rfl
  · split
    · rfl
    · rfl

/-- C3: the claim states that on tables whose feature subset survives
`dropna` with at least 2 rows and a non-constant column,
`prepare_training_data` returns a min-max-scaled feature matrix with all
cells in `[0,1]`. The code instead returns `(None, None)` on every input:
`self.scaler` was never initialized (`MinMaxScaler` is imported but never
instantiated in `__init__`), so the scaling line raises `AttributeError`,
which the handler converts to `(None, None)`. -/
theorem claimC3_prepare_training_data_no_matrix (df : Table) (h : ℕ) :
    (prepareTrainingData df h).1 = (none, none) :=
  prepareTrainingData_fst_none df h

/-- The frame state after `prepare_training_data` when `close` exists:
the caller's frame has been mutated with the `target` column before the
failing scaling line. -/
theorem prepareTrainingData_snd (df : Table) (h : ℕ) (close : List FVal)
    (hc : df.getCol "close" = some close) :
    (prepareTrainingData df h).2 = df.setCol "target" (whereTarget h close) := by
  unfold prepareTrainingData
  split
  · rename_i heq
    rw [hc] at heq
    exact Option.noConfusion heq
  · rename_i cv heq
    rw [hc] at heq
    injection heq with heq'
    subst heq'
    split
    · rfl
    · rfl

/-- C10: on any input frame with a `close` column, `prepare_training_data`
writes the `target` column onto the caller's own frame before scaling is
attempted, and still returns the absent result `(None, None)`: the
builder is not atomic on error. -/
theorem claimC10_target_mutation_before_failure (df : Table) (h : ℕ)
    (close : List FVal) (hc : df.getCol "close" = some close) :
    (prepareTrainingData df h).2 = df.setCol "target" (whereTarget h close) ∧
    (prepareTrainingData df h).2.hasCol "target" = true ∧
    (prepareTrainingData df h).1 = (none, none) := by
  refine ⟨prepareTrainingData_snd df h close hc, ?_, prepareTrainingData_fst_none df h⟩
  rw [prepareTrainingData_snd df h close hc]
  exact Table.hasCol_setCol_self df "target" (whereTarget h close)

/-- Witness for C10: a concrete two-row frame with a `close` column is
mutated with a `target` column while the returned dataset is absent. -/
theorem claimC10_witness :
    (Table.mk [("close", [FVal.fin 1, FVal.fin 2])]).getCol "close"
      = some [FVal.fin 1, FVal.fin 2] ∧
    ((prepareTrainingData (Table.mk [("close", [FVal.fin 1, FVal.fin 2])]) 3).2
        = (Table.mk [("close", [FVal.fin 1, FVal.fin 2])]).setCol "target"
            (whereTarget 3 [FVal.fin 1, FVal.fin 2]) ∧
      (prepareTrainingData (Table.mk [("close", [FVal.fin 1, FVal.fin 2])]) 3).2.hasCol
          "target" = true ∧
      (prepareTrainingData (Table.mk [("close", [FVal.fin 1, FVal.fin 2])]) 3).1
        = (none, none)) :=
  ⟨rfl, claimC10_target_mutation_before_failure _ 3 _ rfl⟩

/-! ## Label construction at the horizon boundary -/

theorem get?_shiftUp (c : List FVal) (h t : ℕ) (ht : t < c.length) :
    (shiftUp h c).get? t = some ((c.get? (t + h)).getD FVal.nan) := by
  simp [shiftUp, List.get?_eq_getElem?, List.getElem?_map, List.getElem?_range, ht]

theorem get?_shiftDown (c : List FVal) (t : ℕ) (ht : t < c.length) :
    (shiftDown c).get? t =
      some (if t = 0 then FVal.nan else (c.get? (t - 1)).getD FVal.nan) := by
  simp [shiftDown, List.get?_eq_getElem?, List.getElem?_map, List.getElem?_range, ht]

theorem lt_nan_left (v : FVal) : FVal.lt FVal.nan v = false := by
  cases v <;> rfl

/-- Past the horizon, `close.shift(-h)` is NaN, the `<` comparison is
false, and `np.where` stores the else-value 1. -/
theorem whereTarget_past_horizon (close : List FVal) (h t : ℕ)
    (ht : t < close.length) (hover : close.length ≤ t + h) :
    (whereTarget h close).get? t = some (FVal.fin 1) := by
  unfold whereTarget
  rw [List.get?_zipWith']
  rw [get?_shiftUp close h t ht]
  have hnone : close.get? (t + h) = none := by
    simp [List.get?_eq_getElem?, List.getElem?_eq_none_iff, hover]
  rw [hnone]
  have hsome : close.get? t = some (close.get ⟨t, ht⟩) := List.get?_eq_get ht
  rw [hsome]
  simp [lt_nan_left]

theorem mem_zipWith {α β γ : Type} {f : α → β → γ} {x : γ} :
    ∀ {as : List α} {bs : List β}, x ∈ List.zipWith f as bs →
      ∃ a b, a ∈ as ∧ b ∈ bs ∧ x = f a b := by
  intro as
  induction as with
  | nil => intro bs hx; simp [List.zipWith] at hx
  | cons a as ih =>
      intro bs hx
      cases bs with
      | nil => simp [List.zipWith] at hx
      | cons b bs =>
          simp only [List.zipWith, List.mem_cons] at hx
          rcases hx with hx | hx
          · exact ⟨a, b, List.mem_cons_self _ _, List.mem_cons_self _ _, hx⟩
          · obtain ⟨a', b', ha, hb, hx⟩ := ih hx
            exact ⟨a', b', List.mem_cons_of_mem _ ha, List.mem_cons_of_mem _ hb, hx⟩

/-- Every cell of the `target` column is the integer 0 or 1 — never NaN. -/
theorem whereTarget_cells (h : ℕ) (close : List FVal) (v : FVal)
    (hv : v ∈ whereTarget h close) : v = FVal.fin 0 ∨ v = FVal.fin 1 := by
  obtain ⟨a, b, _, _, hx⟩ := mem_zipWith hv
  subst hx
  by_cases hlt : FVal.lt a (FVal.mul b (FVal.fin (19 / 20))) = true
  · left; simp [hlt]
  · right; simp [hlt]

/-- `dropna` on the integer `target` column removes nothing. -/
theorem dropnaList_whereTarget (h : ℕ) (close : List FVal) :
    dropnaList (whereTarget h close) = whereTarget h close := by
  unfold dropnaList
  rw [List.filter_eq_self]
  intro v hv
  rcases whereTarget_cells h close v hv with hv' | hv' <;>
    simp [hv', FVal.isNan]

/-- C4: the claim states that the label vector returned by
`prepare_training_data` excludes every row `t` with `t + h` beyond the
table bound. The code diverges twice: (1) the returned label vector is
`None` on every input (the `self.scaler` `AttributeError` reaches the
handler before `y` is returned); (2) the `target` column written to the
frame assigns the label 1 to every such row — `NaN < close*0.95` is
false, so `np.where` takes the else-branch — and `dropna` on this integer
column removes nothing, so even the intended path would keep the last
`h` rows. -/
theorem claimC4_horizon_rows_not_excluded (df : Table) (h t : ℕ)
    (close : List FVal) (hc : df.getCol "close" = some close) (_hh : 1 ≤ h)
    (ht : t < close.length) (hover : close.length ≤ t + h) :
    (prepareTrainingData df h).1.2 = none ∧
    (prepareTrainingData df h).2.getCol "target" = some (whereTarget h close) ∧
    (whereTarget h close).get? t = some (FVal.fin 1) ∧
    dropnaList (whereTarget h close) = whereTarget h close := by
  refine ⟨?_, ?_, whereTarget_past_horizon close h t ht hover,
          dropnaList_whereTarget h close⟩
  · rw [prepareTrainingData_fst_none df h]
  · rw [prepareTrainingData_snd df h close hc]
    exact Table.getCol_setCol_self df "target" (whereTarget h close)

/-- Witness for C4: a five-row close column with horizon 3 at row 3
(which has no future reference) gets label 1 and is not dropped. -/
theorem claimC4_witness :
    ((Table.mk [("close", [FVal.fin 1, FVal.fin 2, FVal.fin 3, FVal.fin 4,
        FVal.fin 5])]).getCol "close"
      = some [FVal.fin 1, FVal.fin 2, FVal.fin 3, FVal.fin 4, FVal.fin 5]) ∧
    ((prepareTrainingData (Table.mk [("close",
        [FVal.fin 1, FVal.fin 2, FVal.fin 3, FVal.fin 4, FVal.fin 5])]) 3).1.2
        = none ∧
      (prepareTrainingData (Table.mk [("close",
        [FVal.fin 1, FVal.fin 2, FVal.fin 3, FVal.fin 4, FVal.fin 5])]) 3).2.getCol
          "target"
        = some (whereTarget 3 [FVal.fin 1, FVal.fin 2, FVal.fin 3, FVal.fin 4,
            FVal.fin 5]) ∧
      (whereTarget 3 [FVal.fin 1, FVal.fin 2, FVal.fin 3, FVal.fin 4,
        FVal.fin 5]).get? 3 = some (FVal.fin 1) ∧
      dropnaList (whereTarget 3 [FVal.fin 1, FVal.fin 2, FVal.fin 3, FVal.fin 4,
        FVal.fin 5])
        = whereTarget 3 [FVal.fin 1, FVal.fin 2, FVal.fin 3, FVal.fin 4,
            FVal.fin 5]) :=
  ⟨rfl, claimC4_horizon_rows_not_excluded _ 3 3 _ rfl (by decide) (by decide)
    (by decide)⟩

/-! ## Feature Deriver -/

theorem tryStep_some (df df' : Table) (step : Table → Option Table)
    (rest : Table → Table × Table) (h : step df = some df') :
    tryStep df step rest = rest df' := by
  unfold tryStep
  rw [h]

theorem tryStep_none (df : Table) (step : Table → Option Table)
    (rest : Table → Table × Table) (h : step df = none) :
    tryStep df step rest = (df, df) := by
  unfold tryStep
  rw [h]

/-- When every source column is present, all eight assignments of
`add_technical_features` succeed: the caller's frame becomes
`enrichedTable` and the returned value is its `dropna` copy. -/
theorem addTechnicalFeatures_success (lg : ℚ → FVal) (df : Table)
    (close tbq qv high low op : List FVal)
    (hclose : df.getCol "close" = some close)
    (htbq : df.getCol "taker_buy_quote" = some tbq)
    (hqv : df.getCol "quote_volume" = some qv)
    (hhigh : df.getCol "high" = some high)
    (hlow : df.getCol "low" = some low)
    (hop : df.getCol "open" = some op) :
    addTechnicalFeatures lg df =
      ((enrichedTable lg close tbq qv high low op df).dropna,
       enrichedTable lg close tbq qv high low op df) := by
  simp [addTechnicalFeatures, tryStep, stepLogReturns, stepRatio,
    stepLiquidity, stepSpread, stepSma, stepEma12, stepEma26, stepMacd,
    Table.getCol_setCol_ne, Table.getCol_setCol_self, enrichedTable,
    hclose, htbq, hqv, hhigh, hlow, hop]

/-- The enriched frame's `taker_buy_ratio` column is the elementwise
quotient of `taker_buy_quote` by `quote_volume`. -/
theorem enriched_getCol_ratio (lg : ℚ → FVal)
    (close tbq qv high low op : List FVal) (df : Table) :
    (enrichedTable lg close tbq qv high low op df).getCol "taker_buy_ratio"
      = some (List.zipWith FVal.div tbq qv) := by
  simp [enrichedTable, Table.getCol_setCol_ne, Table.getCol_setCol_self]

/-- The enriched frame's `log_returns` column. -/
theorem enriched_getCol_log_returns (lg : ℚ → FVal)
    (close tbq qv high low op : List FVal) (df : Table) :
    (enrichedTable lg close tbq qv high low op df).getCol "log_returns"
      = some (logReturnsCol lg close) := by
  simp [enrichedTable, Table.getCol_setCol_ne, Table.getCol_setCol_self]

theorem get?_map {α β : Type} (f : α → β) (l : List α) (n : ℕ) :
    (l.map f).get? n = (l.get? n).map f := by
  simp [List.get?_eq_getElem?, List.getElem?_map]

theorem div_nan_right (v : FVal) : FVal.div v FVal.nan = FVal.nan := by
  cases v <;> rfl

/-- C6 (amended): `add_technical_features` stores
`taker_buy_quote[t] / quote_volume[t]` in `taker_buy_ratio[t]` under IEEE
division and raises no division fault; a missing denominator, or a zero
denominator with a zero numerator, yields the missing marker, but a zero
denominator with a nonzero finite numerator stores a signed infinity — a
non-missing value — rather than the missing marker the original claim
requires. -/
theorem claimC6_taker_buy_ratio_ieee (lg : ℚ → FVal) (df : Table)
    (close tbq qv high low op : List FVal)
    (hclose : df.getCol "close" = some close)
    (htbq : df.getCol "taker_buy_quote" = some tbq)
    (hqv : df.getCol "quote_volume" = some qv)
    (hhigh : df.getCol "high" = some high)
    (hlow : df.getCol "low" = some low)
    (hop : df.getCol "open" = some op) :
    ((addTechnicalFeatures lg df).2).getCol "taker_buy_ratio"
      = some (List.zipWith FVal.div tbq qv) ∧
    (∀ t vt wt, tbq.get? t = some vt → qv.get? t = some wt →
      (List.zipWith FVal.div tbq qv).get? t = some (FVal.div vt wt)) ∧
    (∀ v, FVal.div v FVal.nan = FVal.nan) ∧
    FVal.div (FVal.fin 0) (FVal.fin 0) = FVal.nan ∧
    (∀ x : ℚ, x ≠ 0 →
      FVal.div (FVal.fin x) (FVal.fin 0) = FVal.inf (decide (0 < x))) := by
  refine ⟨?_, ?_, div_nan_right, by decide, ?_⟩
  · rw [addTechnicalFeatures_success lg df close tbq qv high low op
      hclose htbq hqv hhigh hlow hop]
    exact enriched_getCol_ratio lg close tbq qv high low op df
  · intro t vt wt hvt hwt
    rw [List.get?_zipWith', hvt, hwt]
    rfl
  · intro x hx
    simp [FVal.div, hx]

/-- Witness for C6: evaluating the amended claim on `sampleFrame6`. -/
theorem claimC6_witness :
    sampleFrame6.getCol "close" = some [FVal.fin 1, FVal.fin 1] ∧
    sampleFrame6.getCol "taker_buy_quote" = some [FVal.fin 1, FVal.fin 1] ∧
    sampleFrame6.getCol "quote_volume" = some [FVal.fin 0, FVal.fin 2] ∧
    sampleFrame6.getCol "high" = some [FVal.fin 1, FVal.fin 1] ∧
    sampleFrame6.getCol "low" = some [FVal.fin 1, FVal.fin 1] ∧
    sampleFrame6.getCol "open" = some [FVal.fin 1, FVal.fin 1] ∧
    (((addTechnicalFeatures idLog sampleFrame6).2).getCol "taker_buy_ratio"
        = some (List.zipWith FVal.div [FVal.fin 1, FVal.fin 1]
            [FVal.fin 0, FVal.fin 2]) ∧
      (∀ t vt wt, List.get? [FVal.fin 1, FVal.fin 1] t = some vt →
        List.get? [FVal.fin 0, FVal.fin 2] t = some wt →
        (List.zipWith FVal.div [FVal.fin 1, FVal.fin 1]
          [FVal.fin 0, FVal.fin 2]).get? t = some (FVal.div vt wt)) ∧
      (∀ v, FVal.div v FVal.nan = FVal.nan) ∧
      FVal.div (FVal.fin 0) (FVal.fin 0) = FVal.nan ∧
      (∀ x : ℚ, x ≠ 0 →
        FVal.div (FVal.fin x) (FVal.fin 0) = FVal.inf (decide (0 < x)))) :=
  ⟨rfl, rfl, rfl, rfl, rfl, rfl,
   claimC6_taker_buy_ratio_ieee idLog sampleFrame6 _ _ _ _ _ _
     rfl rfl rfl rfl rfl rfl⟩

/-- Counterexample for C6 as stated: on `sampleFrame6` (row 0 has
`quote_volume = 0`, `taker_buy_quote = 1`) the `taker_buy_ratio` cell
stored on the caller's frame is `+∞`, a non-missing value, not the
missing marker. -/
theorem claimC6_counterexample :
    ((addTechnicalFeatures idLog sampleFrame6).2).getCol "taker_buy_ratio"
      = some [FVal.inf true, FVal.fin (1 / 2)] ∧
    FVal.inf true ≠ FVal.nan ∧ (FVal.inf true).isNan = false := by
  refine ⟨?_, by decide, by decide⟩
  rfl

/-! ## Pipeline Orchestrator -/

/-- C7 (amended): when the first-used column `close` is missing,
`add_technical_features` fails before any assignment and returns the
input frame unmodified; but when a later required column (here
`quote_volume`) is missing while `close` is present, the `except` handler
returns the partially-mutated frame, which already carries the
`log_returns` column — not the unmodified input the original claim
requires. -/
theorem claimC7_partial_mutation_on_failure (lg : ℚ → FVal)
    (dfA : Table) (hA : dfA.getCol "close" = none)
    (dfB : Table) (cb : List FVal)
    (hB : dfB.getCol "close" = some cb)
    (hq : dfB.getCol "quote_volume" = none) :
    addTechnicalFeatures lg dfA = (dfA, dfA) ∧
    addTechnicalFeatures lg dfB =
      (dfB.setCol "log_returns" (logReturnsCol lg cb),
       dfB.setCol "log_returns" (logReturnsCol lg cb)) ∧
    ((addTechnicalFeatures lg dfB).1).hasCol "log_returns" = true := by
  have hBstep : stepLogReturns lg dfB
      = some (dfB.setCol "log_returns" (logReturnsCol lg cb)) := by
    simp [stepLogReturns, hB]
  have hBqv : (dfB.setCol "log_returns" (logReturnsCol lg cb)).getCol
      "quote_volume" = none := by
    rw [Table.getCol_setCol_ne _ _ _ _ (by decide)]
    exact hq
  have hBratio : stepRatio (dfB.setCol "log_returns" (logReturnsCol lg cb))
      = none := by
    cases htb : (dfB.setCol "log_returns" (logReturnsCol lg cb)).getCol
        "taker_buy_quote" <;>
      simp [stepRatio, htb, hBqv]
  have hBres : addTechnicalFeatures lg dfB =
      (dfB.setCol "log_returns" (logReturnsCol lg cb),
       dfB.setCol "log_returns" (logReturnsCol lg cb)) := by
    unfold addTechnicalFeatures
    rw [tryStep_some _ _ _ _ hBstep]
    exact tryStep_none _ _ _ hBratio
  refine ⟨?_, hBres, ?_⟩
  · unfold addTechnicalFeatures
    exact tryStep_none _ _ _ (by simp [stepLogReturns, hA])
  · rw [hBres]
    exact Table.hasCol_setCol_self dfB "log_returns" (logReturnsCol lg cb)

/-- Witness for C7: the amended claim evaluated on a frame with no
`close` column and on `sampleFrame7` (a `close` column but no
`quote_volume`). -/
theorem claimC7_witness :
    sampleFrameNoClose.getCol "close" = none ∧
    sampleFrame7.getCol "close" = some [FVal.fin 1, FVal.fin 2] ∧
    sampleFrame7.getCol "quote_volume" = none ∧
    (addTechnicalFeatures idLog sampleFrameNoClose
        = (sampleFrameNoClose, sampleFrameNoClose) ∧
      addTechnicalFeatures idLog sampleFrame7 =
        (sampleFrame7.setCol "log_returns"
          (logReturnsCol idLog [FVal.fin 1, FVal.fin 2]),
         sampleFrame7.setCol "log_returns"
          (logReturnsCol idLog [FVal.fin 1, FVal.fin 2])) ∧
      ((addTechnicalFeatures idLog sampleFrame7).1).hasCol "log_returns"
        = true) :=
  ⟨rfl, rfl, rfl,
   claimC7_partial_mutation_on_failure idLog sampleFrameNoClose rfl
     sampleFrame7 [FVal.fin 1, FVal.fin 2] rfl rfl⟩

/-- Counterexample for C7 as stated: `sampleFrame7` is missing the
required `quote_volume` column, yet the frame handed back by
`add_technical_features` is not the unmodified input — it carries the
`log_returns` column added before the failing line. -/
theorem claimC7_counterexample :
    (addTechnicalFeatures idLog sampleFrame7).1 ≠ sampleFrame7 ∧
    ((addTechnicalFeatures idLog sampleFrame7).1).hasCol "log_returns"
      = true ∧
    sampleFrame7.hasCol "log_returns" = false := by
  refine ⟨?_, ?_, by decide⟩
  · intro hcontra
    have hcols : ((addTechnicalFeatures idLog sampleFrame7).1).hasCol
        "log_returns" = sampleFrame7.hasCol "log_returns" := by
      rw [hcontra]
    rw [show ((addTechnicalFeatures idLog sampleFrame7).1).hasCol
        "log_returns" = true from rfl] at hcols
    rw [show sampleFrame7.hasCol "log_returns" = false from rfl] at hcols
    exact absurd hcols (by decide)
  · rfl

/-! ## Log-return formula and warm-up filtering -/

theorem exists_mem_of_getColAux (cs : List (String × List FVal)) (n : String)
    (L : List FVal) (h : getColAux cs n = some L) : ∃ p ∈ cs, p.2 = L := by
  induction cs with
  | nil => simp [getColAux] at h
  | cons c cs ih =>
      by_cases hc : c.1 = n
      · refine ⟨c, List.mem_cons_self _ _, ?_⟩
        unfold getColAux at h
        rw [if_pos hc] at h
        exact Option.some.inj h
      · unfold getColAux at h
        rw [if_neg hc] at h
        obtain ⟨p, hp, hpl⟩ := ih h
        exact ⟨p, List.mem_cons_of_mem _ hp, hpl⟩

/-- A row whose cell is NaN in some named column contains a missing
marker. -/
theorem rowHasNan_of_getCol (t : Table) (n : String) (L : List FVal)
    (i : ℕ) (hg : t.getCol n = some L) (hnan : L.get? i = some FVal.nan) :
    t.rowHasNan i = true := by
  obtain ⟨p, hp, hpl⟩ := exists_mem_of_getColAux t.cols n L hg
  unfold Table.rowHasNan
  rw [List.any_eq_true]
  refine ⟨p, hp, ?_⟩
  rw [hpl, hnan]
  rfl

/-- `dropna` keeps no row that contains a missing marker. -/
theorem not_mem_keptRows_of_rowHasNan (t : Table) (i : ℕ)
    (h : t.rowHasNan i = true) : i ∈ t.keptRows → False := by
  intro hmem
  unfold Table.keptRows at hmem
  rw [List.mem_filter] at hmem
  rw [h] at hmem
  simp at hmem

/-- The stored log-return at a positive row index is the abstract
logarithm of the exact price ratio. -/
theorem get?_logReturnsCol_pos (lg : ℚ → FVal) (close : List FVal)
    (t : ℕ) (ct ct' : ℚ) (ht0 : 0 < t) (ht : t < close.length)
    (hct : close.get? t = some (FVal.fin ct))
    (hct' : close.get? (t - 1) = some (FVal.fin ct'))
    (hden : ct' ≠ 0) :
    (logReturnsCol lg close).get? t = some (lg (ct / ct')) := by
  unfold logReturnsCol
  rw [get?_map, List.get?_zipWith', hct, get?_shiftDown close t ht, hct']
  rw [if_neg (Nat.pos_iff_ne_zero.mp ht0)]
  simp [FVal.div, hden, npLog]

/-- The stored log-return at row 0 is the missing marker: the shifted
price is NaN there. -/
theorem get?_logReturnsCol_zero (lg : ℚ → FVal) (close : List FVal)
    (h0 : 0 < close.length) :
    (logReturnsCol lg close).get? 0 = some FVal.nan := by
  unfold logReturnsCol
  rw [get?_map, List.get?_zipWith', get?_shiftDown close 0 h0,
    List.get?_eq_get h0]
  simp [div_nan_right, npLog]

/-- C9: on a valid candle frame (all source columns present, finite
nonzero closes) with at least two rows, the `log_returns` value written
by `add_technical_features` at each row `t ≥ 1` is the logarithm of
`close[t] / close[t-1]` (the abstract elementwise logarithm `lg` applied
to the exact rational ratio); at row 0 it is the missing marker, and row
0 is excluded from the returned (dropna-filtered) feature table. -/
theorem claimC9_log_return_formula (lg : ℚ → FVal) (df : Table)
    (close tbq qv high low op : List FVal)
    (hclose : df.getCol "close" = some close)
    (htbq : df.getCol "taker_buy_quote" = some tbq)
    (hqv : df.getCol "quote_volume" = some qv)
    (hhigh : df.getCol "high" = some high)
    (hlow : df.getCol "low" = some low)
    (hop : df.getCol "open" = some op)
    (t : ℕ) (ct ct' : ℚ) (ht0 : 0 < t) (ht : t < close.length)
    (hct : close.get? t = some (FVal.fin ct))
    (hct' : close.get? (t - 1) = some (FVal.fin ct'))
    (hden : ct' ≠ 0) :
    ((addTechnicalFeatures lg df).2).getCol "log_returns"
      = some (logReturnsCol lg close) ∧
    (logReturnsCol lg close).get? t = some (lg (ct / ct')) ∧
    (logReturnsCol lg close).get? 0 = some FVal.nan ∧
    (0 ∈ ((addTechnicalFeatures lg df).2).keptRows → False) ∧
    (addTechnicalFeatures lg df).1
      = ((addTechnicalFeatures lg df).2).dropna := by
  have hsucc := addTechnicalFeatures_success lg df close tbq qv high low op
    hclose htbq hqv hhigh hlow hop
  have hlen0 : 0 < close.length := Nat.lt_trans ht0 ht
  have hlog : ((addTechnicalFeatures lg df).2).getCol "log_returns"
      = some (logReturnsCol lg close) := by
    rw [hsucc]
    exact enriched_getCol_log_returns lg close tbq qv high low op df
  refine ⟨hlog, get?_logReturnsCol_pos lg close t ct ct' ht0 ht hct hct' hden,
    get?_logReturnsCol_zero lg close hlen0, ?_, by rw [hsucc]⟩
  exact not_mem_keptRows_of_rowHasNan _ 0
    (rowHasNan_of_getCol _ "log_returns" (logReturnsCol lg close) 0 hlog
      (get?_logReturnsCol_zero lg close hlen0))

/-- Witness for C9: the formula evaluated on `sampleFrame7`s close
prices inside `sampleFrame6` — concretely, on `sampleFrame6` with
`t = 1`. -/
theorem claimC9_witness :
    sampleFrame6.getCol "close" = some [FVal.fin 1, FVal.fin 1] ∧
    List.get? [FVal.fin 1, FVal.fin 1] 1 = some (FVal.fin 1) ∧
    List.get? [FVal.fin 1, FVal.fin 1] 0 = some (FVal.fin 1) ∧
    (1 : ℚ) ≠ 0 ∧
    (((addTechnicalFeatures idLog sampleFrame6).2).getCol "log_returns"
        = some (logReturnsCol idLog [FVal.fin 1, FVal.fin 1]) ∧
      (logReturnsCol idLog [FVal.fin 1, FVal.fin 1]).get? 1
        = some (idLog (1 / 1)) ∧
      (logReturnsCol idLog [FVal.fin 1, FVal.fin 1]).get? 0
        = some FVal.nan ∧
      (0 ∈ ((addTechnicalFeatures idLog sampleFrame6).2).keptRows → False) ∧
      (addTechnicalFeatures idLog sampleFrame6).1
        = ((addTechnicalFeatures idLog sampleFrame6).2).dropna) :=
  ⟨rfl, rfl, rfl, by decide,
   claimC9_log_return_formula idLog sampleFrame6 _ _ _ _ _ _
     rfl rfl rfl rfl rfl rfl 1 1 1 (by decide) (by decide) rfl rfl
     (by decide)⟩

/-! ## Persistence path sanitization -/

/-- C8 (amended): for every caller-supplied filename whose pathlib base
name is a regular component — neither empty nor `..` — the write target
`Path('data/processed') / Path(filename).name` resolves strictly inside
`data/processed` (this covers the traversal attack `"../../etc/passwd"`,
whose base name is `passwd`); but `PurePath.name` keeps a final `..`
component, so a filename ending in `..` escapes this guarantee (see the
counterexample). -/
theorem claimC8_path_sanitization (f nm : String) (hnm : pathName f = nm)
    (h1 : nm ≠ "") (h2 : nm ≠ "..") :
    saveTargetComps f = ["data", "processed", nm] ∧
    resolveComps (saveTargetComps f) = ["data", "processed", nm] ∧
    strictlyInsideProcessed (saveTargetComps f) = true ∧
    pathName "../../etc/passwd" = "passwd" := by
  subst hnm
  have hs : saveTargetComps f = ["data", "processed", pathName f] := by
    unfold saveTargetComps
    rw [if_neg h1]
    rfl
  have hr : resolveComps ["data", "processed", pathName f]
      = ["data", "processed", pathName f] := by
    unfold resolveComps
    simp [h2]
  refine ⟨hs, by rw [hs]; exact hr, ?_, by decide⟩
  rw [hs]
  unfold strictlyInsideProcessed
  rw [hr]
  rfl

/-- Witness for C8: the spec's own traversal attack
`"../../etc/passwd"` resolves to `data/processed/passwd`, strictly
inside the output directory. -/
theorem claimC8_witness :
    pathName "../../etc/passwd" = "passwd" ∧
    ("passwd" : String) ≠ "" ∧
    ("passwd" : String) ≠ ".." ∧
    (saveTargetComps "../../etc/passwd" = ["data", "processed", "passwd"] ∧
      resolveComps (saveTargetComps "../../etc/passwd")
        = ["data", "processed", "passwd"] ∧
      strictlyInsideProcessed (saveTargetComps "../../etc/passwd") = true ∧
      pathName "../../etc/passwd" = "passwd") :=
  ⟨by decide, by decide, by decide,
   claimC8_path_sanitization "../../etc/passwd" "passwd" (by decide)
     (by decide) (by decide)⟩

/-- Counterexample for C8 as stated: the filename `".."` has pathlib
base name `".."` (not discarded), so the write target is
`data/processed/..`, which resolves to the parent directory `data` —
outside the designated directory. -/
theorem claimC8_counterexample :
    pathName ".." = ".." ∧
    saveTargetComps ".." = ["data", "processed", ".."] ∧
    resolveComps (saveTargetComps "..") = ["data"] ∧
    strictlyInsideProcessed (saveTargetComps "..") = false := by
  refine ⟨by decide, by decide, by decide, by decide⟩

/-! ## Pipeline Orchestrator -/

/-- C5: the claim states that the pipeline on the 25-row strictly
increasing synthetic scenario yields a 6-row feature table with all
labels 1. The code instead returns `None` for every input (the
synthetic scenario included): `process_to_dataframe` always returns
`None` (misspelled `error=` keyword), so `full_pipeline` short-circuits;
even past that stage, the 6 surviving rows are at most 10 non-missing
returns, so `calculate_volatility` would return `None` as well. -/
theorem claimC5_full_pipeline_always_none (lg : ℚ → FVal)
    (garch : List FVal → Option (List FVal)) (klines : List (List RawVal))
    (saveAs : Option String) :
    fullPipeline lg garch klines saveAs = none := by
  unfold fullPipeline
  rw [processToDataframe_eq_none]

end CryptoGuard
